import Mathlib

/-!
Shallow embedding of the HEB product-scraper (src/app.py) for checking the
natural-language specification against the code.

Modelling conventions:
* Python strings are Lean `String`; all character-level work happens on the
  underlying `List Char` (`String.data`), matching Python character slicing
  and `len`.
* A live DOM element (a Selenium WebElement) is modelled by `Elem`: its tag
  name, attribute list (`get_attribute` returns `none` for missing
  attributes), rendered text, rendered size, a node identity, and the results
  of `find_elements` keyed by the selector string used at the call site.
  The browser is a deterministic oracle, so driver calls are total; the bare
  `except` branches that only guard driver failures are therefore dead in the
  model, while exceptions that the Python code itself raises (such as the
  unbound local in the selector cascade) are modelled explicitly with
  `Except`.
* The regular expressions used by the code are modelled as executable
  maximal-munch matchers; for every pattern used by the code the character
  classes of adjacent pieces are disjoint, so maximal munch agrees with
  the Python regex engine (leftmost match, greedy quantifiers).
-/

namespace HEBScrape

/-- Characters of a string, the representation used for all Python-style
character work. -/
def chars (s : String) : List Char := s.data

/-- Python `str.strip()`: drop whitespace from both ends. -/
def pyStripL (l : List Char) : List Char :=
  ((l.dropWhile Char.isWhitespace).reverse.dropWhile Char.isWhitespace).reverse

/-- Python `str.strip()` on a `String`. -/
def pyStrip (s : String) : String := ⟨pyStripL s.data⟩

/-- Python `str.lower()` (ASCII case folding, as used by the scraper). -/
def pyLower (s : String) : String := ⟨s.data.map Char.toLower⟩

/-- Python `len(s)`. -/
def pyLen (s : String) : Nat := s.data.length

/-- Python `s[:n]` (prefix of at most `n` characters). -/
def pyTake (s : String) (n : Nat) : String := ⟨s.data.take n⟩

/-- Python `sub in s` (substring containment). -/
def strContains (s sub : String) : Bool := decide (sub.data <:+: s.data)

/-- Python `s.startswith(p)`. -/
def pyStarts (s p : String) : Bool := decide (p.data <+: s.data)

/-- Python `s.split(sep)[0]` for a one-character separator: everything
before the first occurrence of the separator. -/
def firstSeg (l : List Char) (sep : Char) : List Char :=
  l.takeWhile (fun c => !(c = sep : Bool))

/-- Python `s.split(newline)`, as used on rendered text. -/
def splitNl : List Char → List (List Char)
  | [] => [[]]
  | c :: rest =>
      if c = '\n' then [] :: splitNl rest
      else
        match splitNl rest with
        | [] => [[c]]
        | h :: t => (c :: h) :: t

/-- Number of whitespace-separated words, Python `len(s.split())`: the
number of maximal runs of non-whitespace characters, computed by a scan
that tracks whether the previous character was inside a word. -/
def countWords (l : List Char) : Nat :=
  (l.foldl
    (fun (st : Nat × Bool) c =>
      if c.isWhitespace then (st.1, false)
      else if st.2 then st else (st.1 + 1, true))
    (0, false)).1

/-- Python truthiness of an optional string field (None and the empty
string are falsy). -/
def pyTruthy : Option String → Bool
  | none => false
  | some s => !s.isEmpty

/-- Python `x if x else None` on an optional string: keep only a truthy
value. -/
def truthyVal : Option String → Option String
  | none => none
  | some s => if s.isEmpty then none else some s

/-! ### Models of the regular expressions in src/app.py -/

/-- Character class `[\d,]` of the price patterns. -/
def digitComma (c : Char) : Bool := c.isDigit || c = ','

/-- Attempt the pattern `\$[\d,]+\.?\d*` at the start of the list,
returning the matched characters (greedy, as the Python engine). -/
def matchPriceAt : List Char → Option (List Char)
  | '$' :: rest =>
      let ds := rest.takeWhile digitComma
      let r1 := rest.dropWhile digitComma
      if ds.isEmpty then none
      else
        match r1 with
        | '.' :: r2 => some ('$' :: ds ++ '.' :: r2.takeWhile Char.isDigit)
        | _ => some ('$' :: ds)
  | _ => none

/-- Python `re.search` of the pattern `\$[\d,]+\.?\d*`: leftmost match. -/
def searchPriceL : List Char → Option (List Char)
  | [] => none
  | c :: rest =>
      match matchPriceAt (c :: rest) with
      | some m => some m
      | none => searchPriceL rest

/-- Leftmost `\$[\d,]+\.?\d*` match of a string. -/
def searchPrice (s : String) : Option String :=
  (searchPriceL s.data).map fun l => ⟨l⟩

/-- Python `bool(re.search(...))` for the standard price pattern. -/
def hasPriceSub (s : String) : Bool := (searchPriceL s.data).isSome

/-- Python `re.match` of the end-anchored price pattern: the whole string is a
price. -/
def matchFullPrice (s : String) : Bool :=
  match matchPriceAt s.data with
  | some m => decide (m = s.data)
  | none => false

/-- Python `re.match` of the unanchored price pattern: the string starts with a
price. -/
def matchPriceStart (s : String) : Bool := (matchPriceAt s.data).isSome

/-- Attempt `\$\s*[\d,]+\.?\d*` at the start of the list. -/
def matchPrice2At : List Char → Option (List Char)
  | '$' :: rest =>
      let ws := rest.takeWhile Char.isWhitespace
      let r0 := rest.dropWhile Char.isWhitespace
      let ds := r0.takeWhile digitComma
      let r1 := r0.dropWhile digitComma
      if ds.isEmpty then none
      else
        match r1 with
        | '.' :: r2 => some ('$' :: ws ++ ds ++ '.' :: r2.takeWhile Char.isDigit)
        | _ => some ('$' :: ws ++ ds)
  | _ => none

/-- Python `re.search` of the spaced price pattern `\$\s*[\d,]+\.?\d*`. -/
def searchPrice2L : List Char → Option (List Char)
  | [] => none
  | c :: rest =>
      match matchPrice2At (c :: rest) with
      | some m => some m
      | none => searchPrice2L rest

/-- Attempt `[\d,]+\.?\d*\s*\$` at the start of the list. -/
def matchPrice3At (l : List Char) : Option (List Char) :=
  let ds := l.takeWhile digitComma
  let r1 := l.dropWhile digitComma
  if ds.isEmpty then none
  else
    let (mid, r2) :=
      match r1 with
      | '.' :: r2 => ('.' :: r2.takeWhile Char.isDigit, r2.dropWhile Char.isDigit)
      | _ => ([], r1)
    let ws := r2.takeWhile Char.isWhitespace
    match r2.dropWhile Char.isWhitespace with
    | '$' :: _ => some (ds ++ mid ++ ws ++ ['$'])
    | _ => none

/-- Python `re.search` of the reversed price pattern `[\d,]+\.?\d*\s*\$`. -/
def searchPrice3L : List Char → Option (List Char)
  | [] => none
  | c :: rest =>
      match matchPrice3At (c :: rest) with
      | some m => some m
      | none => searchPrice3L rest

/-- Quote characters of the onclick pattern. -/
def isQuote (c : Char) : Bool := c = '"' || c = '\x27'

/-- Python `re.search` of the quoted-span pattern ([quote][no-quote]*heb.com[no-quote]*[quote]):
find a quoted span containing `heb.com` and return the span between the
quotes (the captured group). -/
def searchOnclickL : List Char → Option (List Char)
  | [] => none
  | c :: rest =>
      if isQuote c then
        let content := rest.takeWhile (fun c => !isQuote c)
        match rest.dropWhile (fun c => !isQuote c) with
        | [] => searchOnclickL rest
        | _ :: _ =>
            if decide ((chars "heb.com") <:+: content) then some content
            else searchOnclickL rest
      else searchOnclickL rest

/-- Onclick URL search on a string. -/
def searchOnclick (s : String) : Option String :=
  (searchOnclickL s.data).map fun l => ⟨l⟩

/-- Index of the last closing parenthesis inside the captured run of the
background-image pattern, if it sits at index at least one. -/
def lastParenIdx (r : List Char) : Option Nat :=
  (List.range r.length).foldl
    (fun acc k => if 1 ≤ k && r.getD k ' ' = ')' then some k else acc) none

/-- Python `re.search` of the background pattern (url, open paren, optional quote, captured non-quotes, optional quote, close paren): the URL
inside a CSS `url(...)` expression. -/
def searchBgL : List Char → Option (List Char)
  | [] => none
  | c0 :: rest' =>
      if (chars "url(").isPrefixOf (c0 :: rest') then
        let t := (c0 :: rest').drop 4
        let t1 := match t with
          | c :: t' => if isQuote c then t' else c :: t'
          | [] => []
        let r := t1.takeWhile (fun c => !isQuote c)
        let after := t1.drop r.length
        if !r.isEmpty &&
            (match after with
             | q :: ')' :: _ => isQuote q
             | _ => false) then some r
        else
          match lastParenIdx r with
          | some k => some (r.take k)
          | none => searchBgL rest'
      else searchBgL rest'

/-! ### DOM model -/

/-- A live DOM element handle. `sub` gives, for each selector string that
the code passes to `find_elements` (CSS selector, tag name or XPath), the
elements the driver returns; a selector that is not listed returns no
matches. `nodeId` models Python object identity of the handle. -/
inductive Elem : Type where
  | mk (nodeId : Nat) (tagName : String) (attrs : List (String × String))
       (text : String) (width : Nat) (height : Nat)
       (sub : List (String × List Elem)) : Elem

/-- Node identity, Python `id(elem)`. -/
def Elem.nodeId : Elem → Nat
  | .mk n _ _ _ _ _ _ => n

/-- Tag name, Selenium `elem.tag_name`. -/
def Elem.tag : Elem → String
  | .mk _ t _ _ _ _ _ => t

/-- Attribute list of the element. -/
def Elem.attrs : Elem → List (String × String)
  | .mk _ _ a _ _ _ _ => a

/-- Rendered text, Selenium `elem.text`. -/
def Elem.text : Elem → String
  | .mk _ _ _ t _ _ _ => t

/-- Rendered width, Selenium `elem.size[width]`. -/
def Elem.width : Elem → Nat
  | .mk _ _ _ _ w _ _ => w

/-- Rendered height, Selenium `elem.size[height]`. -/
def Elem.height : Elem → Nat
  | .mk _ _ _ _ _ h _ => h

/-- Query table of the element. -/
def Elem.sub : Elem → List (String × List Elem)
  | .mk _ _ _ _ _ _ s => s

/-- Selenium `elem.get_attribute(name)`: `none` for a missing attribute. -/
def Elem.getAttr (e : Elem) (name : String) : Option String :=
  e.attrs.lookup name

/-- Selenium `elem.find_elements(sel)`. -/
def Elem.query (e : Elem) (sel : String) : List Elem :=
  (e.sub.lookup sel).getD []

/-- Selenium `elem.find_element(sel)` where the caller catches
`NoSuchElementException`: the first match, if any. -/
def Elem.queryOne (e : Elem) (sel : String) : Option Elem :=
  (e.query sel).head?

/-! ### Product records (src/app.py, extract_product_data) -/

/-- The product dictionary built by `extract_product_data`
(`product_title`, `product_price`, `product_image`,
`product_hyperlink`). -/
structure Product where
  title : Option String
  price : Option String
  image : Option String
  hyperlink : Option String
deriving DecidableEq, Repr

/-- Base URL of the scraper (`self.base_url`). -/
def baseUrl : String := "https://heb.com"

/-- URL normalisation used throughout `extract_product_data`:
`href if href.startswith(http) else base_url + href if href.startswith(/)
else base_url + / + href`. -/
def normalizeHref (href : String) : String :=
  if pyStarts href "http" then href
  else if pyStarts href "/" then baseUrl ++ href
  else baseUrl ++ "/" ++ href

/-- The category/department/shop exclusion used in `extract_products`. -/
def isCategoryHref (h : String) : Bool :=
  strContains h "/category/" || strContains h "/department/" ||
    strContains h "/shop/"

/-! #### Hyperlink strategies (src/app.py lines 1186-1232) -/

/-- Hyperlink strategy 1/2 body: given a raw `href` attribute value,
normalise it and keep it only when it mentions `heb.com`
(`if href and href.strip(): normalise; if heb.com in href: take`). -/
def hrefNormalizeKeep (href : String) : Option String :=
  if !(pyStrip href).isEmpty then
    let href := normalizeHref href
    if strContains href "heb.com" then some href else none
  else none

/-- Hyperlink strategy 3: first descendant link whose raw href mentions
`heb.com` (checked before normalisation), normalised. -/
def firstHebLink : List Elem → Option String
  | [] => none
  | link :: rest =>
      match link.getAttr "href" with
      | some href =>
          if !(pyStrip href).isEmpty && strContains href "heb.com" then
            some (normalizeHref href)
          else firstHebLink rest
      | none => firstHebLink rest

/-- Hyperlink strategy 1: the candidate is itself a link. -/
def hyperlinkSelf (e : Elem) : Option String :=
  if pyLower e.tag = "a" then
    match e.getAttr "href" with
    | some href => hrefNormalizeKeep href
    | none => none
  else none

/-- Hyperlink strategy 2: the first descendant link. -/
def hyperlinkChild (e : Elem) : Option String :=
  match e.queryOne "a" with
  | some link =>
      match link.getAttr "href" with
      | some href => hrefNormalizeKeep href
      | none => none
  | none => none

/-- The hyperlink strategy chain of `extract_product_data`. -/
def extractHyperlink (e : Elem) : Option String :=
  match hyperlinkSelf e with
  | some h => some h
  | none =>
      match hyperlinkChild e with
      | some h => some h
      | none =>
          match firstHebLink (e.query "a") with
          | some h => some h
          | none => searchOnclick ((e.getAttr "onclick").getD "")

/-! #### Title strategies (src/app.py lines 1234-1330) -/

/-- The title selector list of strategy 1, in source order. -/
def titleSelectors : List String :=
  ["h1", "h2", "h3", "h4", "h5", "h6",
   "[data-testid*=\x27title\x27 i]",
   "[data-testid*=\x27name\x27 i]",
   "[data-testid*=\x27Title\x27 i]",
   "[data-testid*=\x27Name\x27 i]",
   "[aria-label]",
   ".product-title",
   ".product-name",
   "[class*=\x27title\x27 i]",
   "[class*=\x27name\x27 i]",
   "[class*=\x27Title\x27 i]",
   "[class*=\x27Name\x27 i]",
   "span[class*=\x27title\x27 i]",
   "span[class*=\x27name\x27 i]",
   "div[class*=\x27title\x27 i]",
   "div[class*=\x27name\x27 i]",
   "a[class*=\x27title\x27 i]",
   "a[class*=\x27name\x27 i]",
   "p[class*=\x27title\x27 i]",
   "p[class*=\x27name\x27 i]",
   "*[class*=\x27heading\x27 i]",
   "*[class*=\x27label\x27 i]"]

/-- Validity predicate of title strategy 1: length in [5,200], the text is
not a pure price, and it contains none of the noise terms
`price`, `add to cart`, `buy now`, `view`, `shop`, `category`. -/
def validTitleSel (title : String) : Bool :=
  5 ≤ pyLen title && pyLen title ≤ 200 &&
  !matchFullPrice title &&
  !strContains (pyLower title) "price" &&
  !strContains (pyLower title) "add to cart" &&
  !strContains (pyLower title) "buy now" &&
  !strContains (pyLower title) "view" &&
  !strContains (pyLower title) "shop" &&
  !strContains (pyLower title) "category"

/-- Title strategy 1 inner loop: first descendant whose stripped text
passes `validTitleSel`, truncated to 150 characters. -/
def titleFromElems : List Elem → Option String
  | [] => none
  | t :: rest =>
      let title := pyStrip t.text
      if validTitleSel title then some (pyTake title 150)
      else titleFromElems rest

/-- Title strategy 1 outer loop over the selector cascade. -/
def titleFromSelectors (e : Elem) : List String → Option String
  | [] => none
  | sel :: rest =>
      match titleFromElems (e.query sel) with
      | some t => some t
      | none => titleFromSelectors e rest

/-- Validity predicate of title strategy 2 on one line of rendered text:
length in [5,200], does not start with a price, contains none of
`price`, `add to cart`, `buy now`, `view details`, `shop now`,
`learn more`, and has at least two words. -/
def validTitleLine (line : String) : Bool :=
  5 ≤ pyLen line && pyLen line ≤ 200 &&
  !matchPriceStart line &&
  !strContains (pyLower line) "price" &&
  !strContains (pyLower line) "add to cart" &&
  !strContains (pyLower line) "buy now" &&
  !strContains (pyLower line) "view details" &&
  !strContains (pyLower line) "shop now" &&
  !strContains (pyLower line) "learn more" &&
  2 ≤ countWords line.data

/-- The stripped, non-empty lines of a text block
(`[line.strip() for line in all_text.split(newline) if line.strip()]`). -/
def pyLines (s : String) : List String :=
  ((splitNl s.data).map fun l => (⟨pyStripL l⟩ : String)).filter
    fun l => !l.isEmpty

/-- First line passing `validTitleLine`, truncated to 150 characters. -/
def firstValidLine : List String → Option String
  | [] => none
  | l :: rest =>
      if validTitleLine l then some (pyTake l 150) else firstValidLine rest

/-- Title strategy 2: first meaningful line of the candidate text. -/
def titleFromText (e : Elem) : Option String :=
  let allText := pyStrip e.text
  if !allText.isEmpty then firstValidLine (pyLines allText) else none

/-- Title strategy 2b: the candidate is itself a link; accept its text
under the length and pure-price constraints. -/
def titleFromLinkText (e : Elem) : Option String :=
  if pyLower e.tag = "a" then
    let lt := pyStrip e.text
    if !lt.isEmpty && 5 ≤ pyLen lt && pyLen lt ≤ 200 && !matchFullPrice lt then
      some (pyTake lt 150)
    else none
  else none

/-- Title strategy 3/4: an attribute value of length in [5,200],
truncated to 150 characters (`aria-label`, then `title`). -/
def titleFromAttr (e : Elem) (name : String) : Option String :=
  match e.getAttr name with
  | some v =>
      if !v.isEmpty && 5 ≤ pyLen v && pyLen v ≤ 200 then some (pyTake v 150)
      else none
  | none => none

/-- The title strategy chain of `extract_product_data`. -/
def extractTitle (e : Elem) : Option String :=
  match titleFromSelectors e titleSelectors with
  | some t => some t
  | none =>
      match titleFromText e with
      | some t => some t
      | none =>
          match titleFromLinkText e with
          | some t => some t
          | none =>
              match titleFromAttr e "aria-label" with
              | some t => some t
              | none => titleFromAttr e "title"

/-! #### Price strategies (src/app.py lines 1332-1408) -/

/-- The price selector list of strategy 1, in source order. -/
def priceSelectors : List String :=
  ["[data-testid*=\x27price\x27 i]",
   "[data-testid*=\x27Price\x27 i]",
   ".price",
   "[class*=\x27price\x27 i]",
   "[class*=\x27Price\x27 i]",
   "span[class*=\x27price\x27 i]",
   "div[class*=\x27price\x27 i]",
   "p[class*=\x27price\x27 i]",
   "[aria-label*=\x27price\x27 i]",
   "[class*=\x27cost\x27 i]",
   "[class*=\x27amount\x27 i]",
   "[class*=\x27value\x27 i]"]

/-- Price strategy 1 inner loop: first descendant whose stripped text
contains a standard price pattern. -/
def priceFromElems : List Elem → Option String
  | [] => none
  | pe :: rest =>
      let pt := pyStrip pe.text
      if !pt.isEmpty then
        match searchPrice pt with
        | some m => some m
        | none => priceFromElems rest
      else priceFromElems rest

/-- Price strategy 1 outer loop over the selector cascade. -/
def priceFromSelectors (e : Elem) : List String → Option String
  | [] => none
  | sel :: rest =>
      match priceFromElems (e.query sel) with
      | some p => some p
      | none => priceFromSelectors e rest

/-- Price strategy 2: search the full rendered text with the standard
pattern, then the spaced variant, then the reversed variant; the match is
stripped. -/
def priceFromText (e : Elem) : Option String :=
  let allText := e.text
  if !allText.isEmpty then
    match searchPriceL allText.data with
    | some m => some (pyStrip ⟨m⟩)
    | none =>
        match searchPrice2L allText.data with
        | some m => some (pyStrip ⟨m⟩)
        | none =>
            match searchPrice3L allText.data with
            | some m => some (pyStrip ⟨m⟩)
            | none => none
  else none

/-- Price strategy 3: search the raw markup (`innerHTML`) with the
standard pattern. -/
def priceFromHtml (e : Elem) : Option String :=
  match e.getAttr "innerHTML" with
  | some ih => if !ih.isEmpty then searchPrice ih else none
  | none => none

/-- Price strategy 4: scan every descendant node text
(XPath `.//*`) with the standard pattern. -/
def priceFromChildren : List Elem → Option String
  | [] => none
  | c :: rest =>
      let ct := pyStrip c.text
      if !ct.isEmpty then
        match searchPrice ct with
        | some m => some m
        | none => priceFromChildren rest
      else priceFromChildren rest

/-- The price strategy chain of `extract_product_data`. -/
def extractPrice (e : Elem) : Option String :=
  match priceFromSelectors e priceSelectors with
  | some p => some p
  | none =>
      match priceFromText e with
      | some p => some p
      | none =>
          match priceFromHtml e with
          | some p => some p
          | none => priceFromChildren (e.query ".//*")

/-! #### Image strategies (src/app.py lines 1410-1505) -/

/-- Attribute priority order of image strategy 1. -/
def imgAttrOrder : List String :=
  ["src", "data-src", "data-lazy-src", "data-original", "data-image",
   "data-img", "data-product-image"]

/-- Python guard `img_src and img_src.strip() and img_src != null and
img_src != undefined` of image strategy 1. -/
def goodSrc (s : String) : Bool :=
  !s.isEmpty && !(pyStrip s).isEmpty &&
    !(s = "null" : Bool) && !(s = "undefined" : Bool)

/-- First attribute value passing `goodSrc`, in priority order. -/
def firstGoodSrc (img : Elem) : Option String :=
  imgAttrOrder.findSome? fun a =>
    match img.getAttr a with
    | some s => if goodSrc s then some s else none
    | none => none

/-- Python srcset handling: `split(,)[0].strip().split(space)[0]` when the
value contains a comma. -/
def srcsetFirst (s : String) : String :=
  if strContains s "," then
    ⟨firstSeg (pyStripL (firstSeg s.data ',')) ' '⟩
  else s

/-- Placeholder/logo/icon denylist of image strategy 1. -/
def skipKeywords : List String :=
  ["placeholder", "logo", "icon", "sprite", "1x1", "blank"]

/-- Image strategy 1: first descendant `img` with a usable source
attribute that survives the denylist. -/
def imgFromImgs : List Elem → Option String
  | [] => none
  | img :: rest =>
      match firstGoodSrc img with
      | some s =>
          let s := normalizeHref (srcsetFirst s)
          if skipKeywords.any (fun k => strContains (pyLower s) k) then
            imgFromImgs rest
          else some s
      | none => imgFromImgs rest

/-- Python `a or b or c` on optional strings: the first truthy value. -/
def pyOrS (l : List (Option String)) : Option String :=
  l.findSome? fun o =>
    match o with
    | some s => if s.isEmpty then none else some s
    | none => none

/-- Image strategy 2: `picture img, picture source` descendants with
`src`/`data-src`/`srcset`, rejecting placeholder and logo values. -/
def imgFromPicture : List Elem → Option String
  | [] => none
  | img :: rest =>
      match pyOrS [img.getAttr "src", img.getAttr "data-src",
                   img.getAttr "srcset"] with
      | some s =>
          if !(pyStrip s).isEmpty then
            let s := normalizeHref (srcsetFirst s)
            if !strContains (pyLower s) "placeholder" &&
               !strContains (pyLower s) "logo" then some s
            else imgFromPicture rest
          else imgFromPicture rest
      | none => imgFromPicture rest

/-- Image strategy 2b: among all descendant images, the one with the
largest rendered area whose source does not mention `placeholder`
(ties and zero areas are never selected, because the running best starts
at area 0 and the comparison is strict). -/
def imgLargest (l : List Elem) : Option String :=
  (l.foldl
    (fun (acc : Option String × Nat) img =>
      if img.tag = "img" then
        match pyOrS [img.getAttr "src", img.getAttr "data-src",
                     img.getAttr "data-lazy-src"] with
        | some s =>
            if !(pyStrip s).isEmpty then
              let sz := img.width * img.height
              if acc.2 < sz && !strContains (pyLower s) "placeholder" then
                (some s, sz)
              else acc
            else acc
        | none => acc
      else acc)
    (none, 0)).1.map normalizeHref

/-- The image strategy chain of `extract_product_data`. -/
def extractImage (e : Elem) : Option String :=
  match imgFromImgs (e.query "img") with
  | some s => some s
  | none =>
      match imgFromPicture (e.query "picture img, picture source") with
      | some s => some s
      | none =>
          match imgLargest (e.query "img, [style*=\"background-image\"]") with
          | some s => some s
          | none =>
              (searchBgL ((e.getAttr "style").getD "").data).map
                fun l => normalizeHref ⟨l⟩

/-- The field extractor `extract_product_data`: the four independent
strategy chains. -/
def extract_product_data (e : Elem) : Product :=
  { title := extractTitle e
    price := extractPrice e
    image := extractImage e
    hyperlink := extractHyperlink e }

/-! ### Extraction pass acceptance loop (src/app.py lines 1132-1170)

The candidate-gathering part of `extract_products` depends on the live
page; the cascade tier (lines 860-923) is modelled separately below as
`cascadeCollect`.  The acceptance loop takes whatever candidate elements
were gathered and filters, extracts and deduplicates them against the
process-wide `self.seen_urls` set. -/

/-- The dedup key as computed by the code:
`unique_key = product_url if product_url else product_title`, where both
values go through Python truthiness. -/
def uniqueKeyOpt (p : Product) : Option String :=
  match truthyVal p.hyperlink with
  | some u => some u
  | none => truthyVal p.title

/-- The DedupKey of the specification: `hyperlink` if present (non-null),
else `title`. -/
def dedupKey (p : Product) : Option String :=
  match p.hyperlink with
  | some u => some u
  | none => p.title

/-- One iteration of the acceptance loop of `extract_products`: extract a
record, require essential data, exclude category links, and add the record
only when its key is new; the key is added to the seen set together with
the record. -/
def acceptStep (st : List Product × List String) (e : Elem) :
    List Product × List String :=
  let p := extract_product_data e
  let isCat :=
    match truthyVal p.hyperlink with
    | some u => isCategoryHref u
    | none => false
  let hasEssential := pyTruthy p.title || pyTruthy p.price || pyTruthy p.image
  if hasEssential && !isCat then
    match uniqueKeyOpt p with
    | some k => if k ∈ st.2 then st else (st.1 ++ [p], k :: st.2)
    | none => st
  else st

/-- The acceptance loop of `extract_products` over a gathered candidate
list (with `max_products=None`, so every candidate is processed): returns
the local product list and the updated `self.seen_urls`. -/
def extract_products (seen : List String) (cands : List Elem) :
    List Product × List String :=
  cands.foldl acceptStep ([], seen)

/-! ### Accumulator merge and the two-pass page scrape
(src/app.py lines 230-271) -/

/-- Truthy hyperlinks of the accumulated products
(`{p.get(product_hyperlink) for p in self.products if ...}`). -/
def urlsOf (ps : List Product) : List String :=
  ps.filterMap fun p => truthyVal p.hyperlink

/-- Truthy titles of the accumulated products. -/
def titlesOf (ps : List Product) : List String :=
  ps.filterMap fun p => truthyVal p.title

/-- The pass-2 keep condition of `scrape_category_page`:
`(url and url not in existing_urls) or
(title and title not in existing_titles)`. -/
def mergeCond (p : Product) (us ts : List String) : Bool :=
  (match truthyVal p.hyperlink with
   | some u => !(decide (u ∈ us))
   | none => false) ||
  (match truthyVal p.title with
   | some t => !(decide (t ∈ ts))
   | none => false)

/-- The pass-2 filter loop of `scrape_category_page`: a record is kept
when its truthy url is unseen or its truthy title is unseen; both are then
added to the evolving seen sets. -/
def mergeLoop : List Product → List String → List String → List Product
  | [], _, _ => []
  | p :: rest, us, ts =>
      if mergeCond p us ts then
        p :: mergeLoop rest (us ++ (truthyVal p.hyperlink).toList)
          (ts ++ (truthyVal p.title).toList)
      else mergeLoop rest us ts

/-- The Accumulator merge: recompute the seen url/title sets from the
accumulated collection, filter the pass-2 records, and extend the
collection (`self.products.extend(new_products)`). -/
def merge_pass2 (products pass2 : List Product) : List Product :=
  products ++ mergeLoop pass2 (urlsOf products) (titlesOf products)

/-- Scraper state relevant to accumulation: `self.products` and
`self.seen_urls`. -/
structure ScraperSt where
  products : List Product
  seen_urls : List String
deriving DecidableEq, Repr

/-- The accumulation skeleton of `scrape_category_page`: extraction pass 1
is appended to `self.products`, extraction pass 2 runs against the updated
seen set, the pass-2 records are merged through `merge_pass2`, and the
pass-1 list is returned.  The two candidate lists are the two page
snapshots the driver serves to the two passes. -/
def scrape_category_page (st : ScraperSt) (cands1 cands2 : List Elem) :
    List Product × ScraperSt :=
  let r1 := extract_products st.seen_urls cands1
  let products1 := st.products ++ r1.1
  let r2 := extract_products r1.2 cands2
  (r1.1, ⟨merge_pass2 products1 r2.1, r2.2⟩)

/-! ### The selector cascade of extract_products (src/app.py lines 828-923) -/

/-- A loaded page: the results of the driver-level `find_elements` calls,
keyed by selector. -/
structure Page where
  sub : List (String × List Elem)

/-- Driver query `self.driver.find_elements(sel)`. -/
def Page.query (pg : Page) (sel : String) : List Elem :=
  (pg.sub.lookup sel).getD []

/-- The cascade selector list `product_selectors`, in source order. -/
def productSelectors : List String :=
  ["[data-testid*=\x27product\x27]",
   "[data-testid*=\x27Product\x27]",
   "[data-product-id]",
   "[data-product-sku]",
   "[data-product-code]",
   "div[class*=\x27ProductCard\x27]",
   "div[class*=\x27product-card\x27]",
   "div[class*=\x27ProductTile\x27]",
   "div[class*=\x27product-tile\x27]",
   "div[class*=\x27ProductItem\x27]",
   "div[class*=\x27product-item\x27]",
   "article[class*=\x27product\x27]",
   "article[class*=\x27Product\x27]",
   "li[class*=\x27product\x27]",
   "div[class*=\x27grid-item\x27]",
   "div[class*=\x27GridItem\x27]",
   "a[href*=\x27/product/\x27]",
   "a[href*=\x27/p/\x27]",
   "[class*=\x27card\x27][class*=\x27product\x27]",
   "[class*=\x27tile\x27][class*=\x27product\x27]",
   "[itemtype*=\x27Product\x27]",
   "div.product-item",
   ".product-tile"]

/-- Python exceptions raised (not by the driver but by the code itself)
inside the cascade filter. -/
inductive PyErr : Type where
  | unboundLocal : PyErr
deriving DecidableEq, Repr

/-- The associated link of a cascade match (lines 880-888): the match
itself if it is a link, else its first descendant link; `none` when the
lookup fails (the `except: pass` leaves `href = None`). -/
def cascadeHref (e : Elem) : Option String :=
  if e.tag = "a" then some ((e.getAttr "href").getD "")
  else
    match e.queryOne "a" with
    | some link => some ((link.getAttr "href").getD "")
    | none => none

/-- The per-element body of the cascade filter (lines 873-903).  After the
category exclusion the code computes `text`, `has_img`, `has_link` and
`has_price`, then evaluates
`if has_img and (has_text or has_price or text)` — but `has_text` is an
unbound local at this point (it is first assigned only in the later
escalation tiers), so whenever `has_img` is true the condition raises
`UnboundLocalError`; when `has_img` is false the conjunction
short-circuits to false.  Either way the element is never appended. -/
def cascadeStep (e : Elem) : Except PyErr Bool :=
  let skip :=
    match cascadeHref e with
    | some h => !h.isEmpty && isCategoryHref h
    | none => false
  if skip then Except.ok false
  else
    let _text := pyStrip e.text
    let hasImg := decide (0 < (e.query "img").length)
    let _hasLink := decide (0 < (e.query "a").length) || decide (e.tag = "a")
    let _hasPrice := hasPriceSub e.text
    if hasImg then Except.error PyErr.unboundLocal
    else Except.ok false

/-- One element of one cascade tier: skip handles already seen, keep the
element only when `cascadeStep` succeeds with `true`, and skip it when the
filter raises (the bare `except` catches the exception). -/
def cascadeInner (st : List Elem × List Nat) (e : Elem) :
    List Elem × List Nat :=
  if e.nodeId ∈ st.2 then st
  else
    match cascadeStep e with
    | Except.ok true => (st.1 ++ [e], e.nodeId :: st.2)
    | Except.ok false => st
    | Except.error _ => st

/-- The cascade collection loop (lines 860-911): all selectors are tried,
matches are deduplicated by handle identity through `seen_element_ids`,
and the filtered matches of every tier are accumulated into one list. -/
def cascadeCollect (pg : Page) : List Elem :=
  (productSelectors.foldl
    (fun (st : List Elem × List Nat) sel => (pg.query sel).foldl cascadeInner st)
    ([], [])).1

/-! ### Scroll orchestrator (src/app.py lines 480-601)

Each script execution or element query against the driver can fail; the
environment records, per loop iteration, the outcome of every driver
interaction the code performs.  Interactions wrapped by the code in
`try/except` (the load-more block, the image counts) are consumed without
letting their error escape; all other interactions propagate errors. -/

/-- Driver-side failure of a script execution or element query. -/
inductive ScriptErr : Type where
  | scriptError : ScriptErr
deriving DecidableEq, Repr

/-- Driver behaviour seen by `scroll_page`, indexed by loop iteration
where relevant.  `escBottom`/`escSmooth` bundle the escalation scroll with
its follow-up height read; `loadMore` bundles the whole load-more block. -/
structure ScrollEnv : Type where
  initHeight : Except ScriptErr Nat
  initScroll : Except ScriptErr Unit
  initImages : Except ScriptErr Nat
  pageY : Nat → Except ScriptErr Nat
  stepScroll : Nat → Except ScriptErr Unit
  loadMore : Nat → Except ScriptErr Unit
  stepImages : Nat → Except ScriptErr Nat
  stepHeight : Nat → Except ScriptErr Nat
  escBottom : Nat → Except ScriptErr Nat
  escSmooth : Nat → Except ScriptErr Nat
  finalScroll : Except ScriptErr Unit
  backHeight : Nat → Except ScriptErr Nat
  backScroll : Nat → Except ScriptErr Unit

/-- The main scroll loop (`while scrolls < max_scrolls`), with
`fuel = max_scrolls - scrolls`.  Returns the number of loop iterations
entered, plus the error that aborted the loop, if any.  The load-more
block and the image count are guarded by `try/except` in the source: an
error there is swallowed (a failed image count leaves both streak
counters unchanged); the scroll-position read, the scroll command, the
height read and the escalation scripts are unguarded and abort the
loop. -/
def scrollLoop (env : ScrollEnv) :
    Nat → Nat → Nat → Nat → Nat → Nat → Nat × Option ScriptErr
  | 0, _, _, _, _, _ => (0, none)
  | fuel + 1, scrolls, lastH, lastC, noCh, noPr =>
      match env.pageY scrolls with
      | Except.error er => (1, some er)
      | Except.ok _ =>
          match env.stepScroll scrolls with
          | Except.error er => (1, some er)
          | Except.ok _ =>
              match env.loadMore scrolls with
              | _ =>
                  match env.stepHeight scrolls with
                  | Except.error er => (1, some er)
                  | Except.ok nH =>
                      let (lastC', noPr') :=
                        match env.stepImages scrolls with
                        | Except.ok imgs =>
                            if lastC < imgs then (imgs, 0) else (lastC, noPr + 1)
                        | Except.error _ => (lastC, noPr)
                      if nH = lastH then
                        if 5 ≤ noCh + 1 then
                          match env.escBottom scrolls with
                          | Except.error er => (1, some er)
                          | Except.ok nH1 =>
                              if nH1 = lastH then
                                match env.escSmooth scrolls with
                                | Except.error er => (1, some er)
                                | Except.ok nH2 =>
                                    if nH2 = lastH ∧ 5 ≤ noPr' then (1, none)
                                    else
                                      let r := scrollLoop env fuel
                                        (scrolls + 1) nH2 lastC' 0 0
                                      (r.1 + 1, r.2)
                              else
                                let r := scrollLoop env fuel
                                  (scrolls + 1) nH1 lastC' 0 0
                                (r.1 + 1, r.2)
                        else
                          let r := scrollLoop env fuel
                            (scrolls + 1) nH lastC' (noCh + 1) noPr'
                          (r.1 + 1, r.2)
                      else
                        let r := scrollLoop env fuel (scrolls + 1) nH lastC' 0 0
                        (r.1 + 1, r.2)

/-- The scroll-back loop after the main loop (`for i in range(5)`): read
the height, and scroll when `height - i * 1000 > 0`; both scripts are
unguarded. -/
def backLoop (env : ScrollEnv) : Nat → Nat → Except ScriptErr Unit
  | _, 0 => Except.ok ()
  | i, fuel + 1 =>
      match env.backHeight i with
      | Except.error er => Except.error er
      | Except.ok h =>
          if 0 < (h : Int) - i * 1000 then
            match env.backScroll i with
            | Except.error er => Except.error er
            | Except.ok _ => backLoop env (i + 1) fuel
          else backLoop env (i + 1) fuel

/-- The scroll orchestrator `scroll_page`: initial height read and
initial scroll (unguarded), initial image count (guarded, result unused
beyond logging), the main loop, the final scroll to the bottom and the
scroll-back loop.  Returns the number of main-loop iterations. -/
def scroll_page (env : ScrollEnv) (maxScrolls : Nat) : Except ScriptErr Nat :=
  match env.initHeight with
  | Except.error er => Except.error er
  | Except.ok h0 =>
      match env.initScroll with
      | Except.error er => Except.error er
      | Except.ok _ =>
          match scrollLoop env maxScrolls 0 h0 0 0 0 with
          | (_, some er) => Except.error er
          | (iters, none) =>
              match env.finalScroll with
              | Except.error er => Except.error er
              | Except.ok _ =>
                  match backLoop env 0 5 with
                  | Except.error er => Except.error er
                  | Except.ok _ => Except.ok iters

end HEBScrape

namespace HEBScrape

/-! ### Concrete inputs used by the claim theorems -/

/-- A candidate whose only text is a bare price and that has no
descendants and no attributes. -/
def priceOnlyElem : Elem := .mk 1 "div" [] "$12.99" 0 0 []

/-- A well-formed product card: matches the first cascade selector, has an
image descendant, a price in its text, and a product link. -/
def goodCardElem : Elem :=
  .mk 2 "div" [] "Fresh Avocados Each\n$0.99" 300 400
    [("img", [.mk 3 "img" [("src", "https://images.heb.com/avocado.jpg")]
        "" 200 200 []]),
     ("a", [.mk 4 "a" [("href", "https://www.heb.com/product/avocado-each")]
        "Fresh Avocados Each" 300 40 []])]

/-- A page whose first cascade selector returns the well-formed card. -/
def goodCardPage : Page :=
  ⟨[("[data-testid*=\x27product\x27]", [goodCardElem])]⟩

/-- A candidate whose only link information is an onclick handler holding
a relative URL that mentions `heb.com`; it carries an image, so it has
essential data. -/
def onclickElem : Elem :=
  .mk 5 "div"
    [("onclick", "window.location=\x27/promo/heb.com/item42\x27")]
    "Sparkling Water 12 pack" 300 400
    [("img", [.mk 6 "img" [("src", "https://images.heb.com/water.jpg")]
        "" 200 200 []])]

/-- A candidate whose own text starts with a noise word that strategy 1
of the title extractor would reject but strategy 2 does not. -/
def shopTextElem : Elem := .mk 7 "div" [] "Shop the garden collection" 0 0 []

/-- A plain product-link candidate used by witnesses. -/
def linkCardElem : Elem :=
  .mk 8 "a" [("href", "https://www.heb.com/product/bananas")]
    "Organic Bananas Bunch" 300 400
    [("img", [.mk 9 "img" [("src", "https://images.heb.com/banana.jpg")]
        "" 200 200 []])]

/-- Sanity check: the model really produces records — a plain product
link yields a full record with title, image and hyperlink. -/
theorem sanity_linkCard :
    (extract_products [] [linkCardElem]).1 =
      [{ title := some "Organic Bananas Bunch", price := none,
         image := some "https://images.heb.com/banana.jpg",
         hyperlink := some "https://www.heb.com/product/bananas" }] := by
  decide

/-- Sanity check: the two-pass scrape on concrete snapshots accumulates
records from both passes, so the accumulation theorems below are not
about an empty collection. -/
theorem sanity_two_pass :
    ((scrape_category_page ⟨[], []⟩ [linkCardElem]
        [linkCardElem, onclickElem]).2).products.length = 2 := by
  decide

/-! ### Substring and normalisation lemmas -/

/-- Characters of a concatenation. -/
theorem strData_append (s t : String) : (s ++ t).data = s.data ++ t.data := rfl

/-- Unfolding of the containment test. -/
theorem strContains_iff {s sub : String} :
    strContains s sub = true ↔ sub.data <:+: s.data := by
  simp [strContains]

/-- A string containing `heb.com` is not empty. -/
theorem ne_empty_of_contains_hebcom {h : String}
    (hc : strContains h "heb.com" = true) : h ≠ "" := by
  rintro rfl
  exact absurd hc (by decide)

/-- URL normalisation preserves a `heb.com` mention (it only prepends). -/
theorem strContains_normalize {h : String}
    (hc : strContains h "heb.com" = true) :
    strContains (normalizeHref h) "heb.com" = true := by
  rw [strContains_iff] at hc
  unfold normalizeHref
  split
  · exact strContains_iff.mpr hc
  · split
    · rw [strContains_iff, strData_append]
      exact hc.trans (List.suffix_append _ _).isInfix
    · rw [strContains_iff, strData_append]
      exact hc.trans (List.suffix_append _ _).isInfix

/-- Whatever `hrefNormalizeKeep` returns mentions `heb.com`. -/
theorem hrefNormalizeKeep_contains {href h : String}
    (hh : hrefNormalizeKeep href = some h) :
    strContains h "heb.com" = true := by
  unfold hrefNormalizeKeep at hh
  split at hh
  · dsimp only [] at hh
    split at hh
    · cases hh
      assumption
    · exact absurd hh (by simp)
  · exact absurd hh (by simp)

/-- Whatever hyperlink strategy 1 returns mentions `heb.com`. -/
theorem hyperlinkSelf_contains {e : Elem} {h : String}
    (hh : hyperlinkSelf e = some h) : strContains h "heb.com" = true := by
  unfold hyperlinkSelf at hh
  split at hh
  · split at hh
    · exact hrefNormalizeKeep_contains hh
    · exact absurd hh (by simp)
  · exact absurd hh (by simp)

/-- Whatever hyperlink strategy 2 returns mentions `heb.com`. -/
theorem hyperlinkChild_contains {e : Elem} {h : String}
    (hh : hyperlinkChild e = some h) : strContains h "heb.com" = true := by
  unfold hyperlinkChild at hh
  split at hh
  · split at hh
    · exact hrefNormalizeKeep_contains hh
    · exact absurd hh (by simp)
  · exact absurd hh (by simp)

/-- Whatever hyperlink strategy 3 returns mentions `heb.com`. -/
theorem firstHebLink_contains : ∀ {ls : List Elem} {h : String},
    firstHebLink ls = some h → strContains h "heb.com" = true := by
  intro ls
  induction ls with
  | nil => intro h hh; exact absurd hh (by simp [firstHebLink])
  | cons link rest ih =>
      intro h hh
      unfold firstHebLink at hh
      split at hh
      · split at hh
        · cases hh
          next hg =>
            exact strContains_normalize (Bool.and_elim_right hg)
        · exact ih hh
      · exact ih hh

/-- Whatever the onclick search returns contains `heb.com`. -/
theorem searchOnclickL_contains : ∀ {l c : List Char},
    searchOnclickL l = some c → (chars "heb.com") <:+: c := by
  intro l
  induction l with
  | nil => intro c hc; exact absurd hc (by simp [searchOnclickL])
  | cons a rest ih =>
      intro c hc
      unfold searchOnclickL at hc
      split at hc
      · dsimp only [] at hc
        split at hc
        · exact ih hc
        · split at hc
          · cases hc
            exact of_decide_eq_true (by assumption)
          · exact ih hc
      · exact ih hc

/-- Every hyperlink the field extractor produces mentions `heb.com`:
strategies 1-3 test this explicitly and strategy 4 only matches quoted
spans containing it. -/
theorem extractHyperlink_contains {e : Elem} {h : String}
    (hh : extractHyperlink e = some h) : strContains h "heb.com" = true := by
  unfold extractHyperlink at hh
  split at hh
  · cases hh; exact hyperlinkSelf_contains (by assumption)
  · split at hh
    · cases hh; exact hyperlinkChild_contains (by assumption)
    · split at hh
      · cases hh; exact firstHebLink_contains (by assumption)
      · unfold searchOnclick at hh
        cases hs : searchOnclickL ((e.getAttr "onclick").getD "").data with
        | none => rw [hs] at hh; exact absurd hh (by simp)
        | some cs =>
            rw [hs] at hh
            cases hh
            exact strContains_iff.mpr (searchOnclickL_contains hs)

/-- A produced hyperlink is never the empty string. -/
theorem extractHyperlink_ne_empty {e : Elem}
    (hh : extractHyperlink e = some "") : False :=
  ne_empty_of_contains_hebcom (extractHyperlink_contains hh) rfl

/-! ### Title strategy lemmas -/

/-- Length of a Python slice. -/
theorem pyLen_pyTake (s : String) (n : Nat) :
    pyLen (pyTake s n) = min n (pyLen s) := by
  simp [pyLen, pyTake, List.length_take]

/-- A title passing the strategy-1 predicate has length at least 5. -/
theorem validTitleSel_len {t : String} (hv : validTitleSel t = true) :
    5 ≤ pyLen t := by
  simp only [validTitleSel, Bool.and_eq_true, decide_eq_true_eq] at hv
  exact hv.1.1.1.1.1.1.1.1

/-- A line passing the strategy-2 predicate has length at least 5. -/
theorem validTitleLine_len {l : String} (hv : validTitleLine l = true) :
    5 ≤ pyLen l := by
  simp only [validTitleLine, Bool.and_eq_true, decide_eq_true_eq] at hv
  exact hv.1.1.1.1.1.1.1.1.1

/-- Every title from the strategy-1 inner loop is a 150-character slice of
a text of length at least 5. -/
theorem titleFromElems_spec : ∀ {ls : List Elem} {t : String},
    titleFromElems ls = some t → ∃ raw, 5 ≤ pyLen raw ∧ t = pyTake raw 150 := by
  intro ls
  induction ls with
  | nil => intro t ht; exact absurd ht (by simp [titleFromElems])
  | cons a rest ih =>
      intro t ht
      unfold titleFromElems at ht
      dsimp only [] at ht
      split at ht
      · cases ht
        exact ⟨pyStrip a.text, validTitleSel_len (by assumption), rfl⟩
      · exact ih ht

/-- Every title from strategy 1 is a 150-character slice of a text of
length at least 5. -/
theorem titleFromSelectors_spec : ∀ {sels : List String} {e : Elem} {t : String},
    titleFromSelectors e sels = some t →
    ∃ raw, 5 ≤ pyLen raw ∧ t = pyTake raw 150 := by
  intro sels
  induction sels with
  | nil => intro e t ht; exact absurd ht (by simp [titleFromSelectors])
  | cons s rest ih =>
      intro e t ht
      unfold titleFromSelectors at ht
      split at ht
      · cases ht; exact titleFromElems_spec (by assumption)
      · exact ih ht

/-- The first-valid-line search, characterised: the result is the first
line passing the predicate, truncated to 150 characters. -/
theorem firstValidLine_spec : ∀ {ls : List String} {t : String},
    firstValidLine ls = some t →
    ∃ pre l post, ls = pre ++ l :: post ∧
      (∀ x ∈ pre, validTitleLine x = false) ∧
      validTitleLine l = true ∧ t = pyTake l 150 := by
  intro ls
  induction ls with
  | nil => intro t ht; exact absurd ht (by simp [firstValidLine])
  | cons a rest ih =>
      intro t ht
      unfold firstValidLine at ht
      split at ht
      · cases ht
        exact ⟨[], a, rest, rfl, by simp, by assumption, rfl⟩
      · obtain ⟨pre, l, post, h1, h2, h3, h4⟩ := ih ht
        refine ⟨a :: pre, l, post, by simp [h1], ?_, h3, h4⟩
        intro x hx
        rcases List.mem_cons.mp hx with rfl | hx
        · simpa using (by assumption : ¬ validTitleLine x = true)
        · exact h2 x hx

/-- Every title from strategy 2 is a 150-character slice of a line of
length at least 5. -/
theorem titleFromText_spec {e : Elem} {t : String}
    (ht : titleFromText e = some t) :
    ∃ raw, 5 ≤ pyLen raw ∧ t = pyTake raw 150 := by
  unfold titleFromText at ht
  dsimp only [] at ht
  split at ht
  · obtain ⟨pre, l, post, _, _, hv, h4⟩ := firstValidLine_spec ht
    exact ⟨l, validTitleLine_len hv, h4⟩
  · exact absurd ht (by simp)

/-- Every title from strategy 2b is a 150-character slice of a text of
length at least 5. -/
theorem titleFromLinkText_spec {e : Elem} {t : String}
    (ht : titleFromLinkText e = some t) :
    ∃ raw, 5 ≤ pyLen raw ∧ t = pyTake raw 150 := by
  unfold titleFromLinkText at ht
  split at ht
  · dsimp only [] at ht
    split at ht
    · cases ht
      refine ⟨pyStrip e.text, ?_, rfl⟩
      have hg := (by assumption :
        (!(pyStrip e.text).isEmpty && 5 ≤ pyLen (pyStrip e.text) &&
          pyLen (pyStrip e.text) ≤ 200 &&
          !matchFullPrice (pyStrip e.text)) = true)
      simp only [Bool.and_eq_true, decide_eq_true_eq] at hg
      exact hg.1.1.2
    · exact absurd ht (by simp)
  · exact absurd ht (by simp)

/-- Every title from strategies 3 and 4 is a 150-character slice of an
attribute of length at least 5. -/
theorem titleFromAttr_spec {e : Elem} {name t : String}
    (ht : titleFromAttr e name = some t) :
    ∃ raw, 5 ≤ pyLen raw ∧ t = pyTake raw 150 := by
  unfold titleFromAttr at ht
  cases hv : e.getAttr name with
  | none => rw [hv] at ht; exact absurd ht (by simp)
  | some v =>
      rw [hv] at ht
      dsimp only [] at ht
      split at ht
      · cases ht
        have hg := (by assumption :
          (!v.isEmpty && 5 ≤ pyLen v && pyLen v ≤ 200) = true)
        simp only [Bool.and_eq_true, decide_eq_true_eq] at hg
        exact ⟨v, hg.1.2, rfl⟩
      · exact absurd ht (by simp)

/-- Every title the field extractor produces is a 150-character slice of a
text of length at least 5. -/
theorem extractTitle_spec {e : Elem} {t : String}
    (ht : extractTitle e = some t) :
    ∃ raw, 5 ≤ pyLen raw ∧ t = pyTake raw 150 := by
  unfold extractTitle at ht
  split at ht
  · cases ht; exact titleFromSelectors_spec (by assumption)
  · split at ht
    · cases ht; exact titleFromText_spec (by assumption)
    · split at ht
      · cases ht; exact titleFromLinkText_spec (by assumption)
      · split at ht
        · cases ht; exact titleFromAttr_spec (by assumption)
        · exact titleFromAttr_spec ht

/-- Length bounds on every produced title. -/
theorem extractTitle_bounds {e : Elem} {t : String}
    (ht : extractTitle e = some t) : 5 ≤ pyLen t ∧ pyLen t ≤ 150 := by
  obtain ⟨raw, h5, rfl⟩ := extractTitle_spec ht
  rw [pyLen_pyTake]
  exact ⟨Nat.le_min.mpr ⟨by norm_num, h5⟩, Nat.min_le_left _ _⟩

/-- A produced title is never the empty string. -/
theorem extractTitle_ne_empty {e : Elem}
    (ht : extractTitle e = some "") : False :=
  absurd (extractTitle_bounds ht).1 (by decide)

/-- Hyperlink and title of an extracted record are never the empty
string; this identifies the truthiness-based dedup key of the code with
the DedupKey of the specification. -/
theorem extract_no_empty_fields (e : Elem) :
    (extract_product_data e).hyperlink ≠ some "" ∧
    (extract_product_data e).title ≠ some "" :=
  ⟨fun h => extractHyperlink_ne_empty h, fun h => extractTitle_ne_empty h⟩

/-- On records without empty-string fields the dedup key of the code and
the DedupKey of the specification agree. -/
theorem dedupKey_eq_uniqueKey {p : Product}
    (h1 : p.hyperlink ≠ some "") (h2 : p.title ≠ some "") :
    dedupKey p = uniqueKeyOpt p := by
  unfold dedupKey uniqueKeyOpt truthyVal
  cases hp : p.hyperlink with
  | some u =>
      have hu : u.isEmpty = false := by
        cases he : u.isEmpty
        · rfl
        · exact absurd (by rw [(String.isEmpty_iff u).mp he] at hp; exact hp) h1
      simp [hu]
  | none =>
      cases hq : p.title with
      | some v =>
          have hv : v.isEmpty = false := by
            cases he : v.isEmpty
            · rfl
            · exact absurd (by rw [(String.isEmpty_iff v).mp he] at hq; exact hq) h2
          simp [hv]
      | none => simp

/-! ### Acceptance loop lemmas -/

/-- Case analysis of one acceptance step: either the state is unchanged,
or the extracted record is appended together with its fresh key, and the
record passed the essential-data and category filters. -/
theorem acceptStep_cases (st : List Product × List String) (e : Elem) :
    acceptStep st e = st ∨
    ∃ k, uniqueKeyOpt (extract_product_data e) = some k ∧ k ∉ st.2 ∧
      (pyTruthy (extract_product_data e).title ||
        pyTruthy (extract_product_data e).price ||
        pyTruthy (extract_product_data e).image) = true ∧
      (∀ u, truthyVal (extract_product_data e).hyperlink = some u →
        isCategoryHref u = false) ∧
      acceptStep st e = (st.1 ++ [extract_product_data e], k :: st.2) := by
  unfold acceptStep
  dsimp only []
  split
  · next hcond =>
      split
      · next k hk =>
          split
          · exact Or.inl rfl
          · next hmem =>
              right
              refine ⟨k, hk, hmem, ?_, ?_, rfl⟩
              · exact ((Bool.and_eq_true _ _).mp hcond).1
              · intro u hu
                have h2 := ((Bool.and_eq_true _ _).mp hcond).2
                rw [hu] at h2
                simpa using h2
      · exact Or.inl rfl
  · exact Or.inl rfl

/-- Specification of the acceptance fold of `extract_products`: the
product list grows by a tail of freshly-keyed extracted records; keys of
the tail records are pairwise distinct, present in the final seen set and
absent from the initial one; every tail record passed the essential-data
and category filters; and the seen set only grows. -/
theorem acceptFold_spec :
    ∀ (cands : List Elem) (acc : List Product) (seen : List String),
    ∃ tail,
      (cands.foldl acceptStep (acc, seen)).1 = acc ++ tail ∧
      (∀ x, x ∈ seen → x ∈ (cands.foldl acceptStep (acc, seen)).2) ∧
      (∀ p, p ∈ tail →
        (∃ e, p = extract_product_data e) ∧
        (pyTruthy p.title || pyTruthy p.price || pyTruthy p.image) = true ∧
        (∀ u, truthyVal p.hyperlink = some u → isCategoryHref u = false) ∧
        ∃ k, uniqueKeyOpt p = some k ∧
          k ∈ (cands.foldl acceptStep (acc, seen)).2 ∧ k ∉ seen) ∧
      List.Pairwise (fun a b => uniqueKeyOpt a ≠ uniqueKeyOpt b) tail := by
  intro cands
  induction cands with
  | nil =>
      intro acc seen
      exact ⟨[], by simp, fun x hx => by simpa using hx, by simp, by simp⟩
  | cons e rest ih =>
      intro acc seen
      rw [List.foldl_cons]
      rcases acceptStep_cases (acc, seen) e with hst | ⟨k, hk, hkmem, hess, hcat, hst⟩
      · rw [hst]
        exact ih acc seen
      · rw [hst]
        obtain ⟨tail, h1, h2, h3, h4⟩ := ih (acc ++ [extract_product_data e]) (k :: seen)
        refine ⟨extract_product_data e :: tail, ?_, ?_, ?_, ?_⟩
        · rw [h1, List.append_assoc]
          rfl
        · intro x hx
          exact h2 x (List.mem_cons_of_mem _ hx)
        · intro p hp
          rcases List.mem_cons.mp hp with rfl | hp
          · exact ⟨⟨e, rfl⟩, hess, hcat, k, hk,
              h2 k (List.mem_cons_self _ _), hkmem⟩
          · obtain ⟨he, hes, hca, k2, hk2, hkin, hknotin⟩ := h3 p hp
            exact ⟨he, hes, hca, k2, hk2, hkin,
              fun hmem => hknotin (List.mem_cons_of_mem _ hmem)⟩
        · constructor
          · intro q hq
            obtain ⟨_, _, _, k2, hk2, _, hknotin⟩ := h3 q hq
            rw [hk, hk2]
            intro hkk
            injection hkk with hkk
            exact hknotin (hkk ▸ List.mem_cons_self _ _)
          · exact h4

/-! ### Accumulator merge lemmas -/

/-- The kept pass-2 records form a sublist of the pass-2 input. -/
theorem mergeLoop_sublist : ∀ (l : List Product) (us ts : List String),
    (mergeLoop l us ts).Sublist l := by
  intro l
  induction l with
  | nil => intro us ts; simp [mergeLoop]
  | cons p rest ih =>
      intro us ts
      unfold mergeLoop
      split
      · exact (ih _ _).cons₂ p
      · exact (ih _ _).cons p

/-- The keep condition fails exactly when both truthy keys are already
present. -/
theorem mergeCond_false_iff (p : Product) (us ts : List String) :
    mergeCond p us ts = false ↔
      (∀ u, truthyVal p.hyperlink = some u → u ∈ us) ∧
      (∀ t, truthyVal p.title = some t → t ∈ ts) := by
  unfold mergeCond
  cases hu : truthyVal p.hyperlink <;> cases ht : truthyVal p.title <;>
    simp

/-- Truthy urls of the accumulated list, unfolded on a cons cell. -/
theorem urlsOf_cons (p : Product) (rest : List Product) :
    urlsOf (p :: rest) = (truthyVal p.hyperlink).toList ++ urlsOf rest := by
  unfold urlsOf
  cases hu : truthyVal p.hyperlink <;> simp [List.filterMap_cons, hu]

/-- Truthy titles of the accumulated list, unfolded on a cons cell. -/
theorem titlesOf_cons (p : Product) (rest : List Product) :
    titlesOf (p :: rest) = (truthyVal p.title).toList ++ titlesOf rest := by
  unfold titlesOf
  cases ht : truthyVal p.title <;> simp [List.filterMap_cons, ht]

/-- Truthy urls of a concatenation. -/
theorem urlsOf_append (a b : List Product) :
    urlsOf (a ++ b) = urlsOf a ++ urlsOf b :=
  List.filterMap_append a b _

/-- Truthy titles of a concatenation. -/
theorem titlesOf_append (a b : List Product) :
    titlesOf (a ++ b) = titlesOf a ++ titlesOf b :=
  List.filterMap_append a b _

/-- When the second-run seen sets cover the first-run seen sets and every
key produced by the first run, the second run keeps nothing. -/
theorem mergeLoop_subsumed :
    ∀ (l : List Product) (us ts us2 ts2 : List String),
    (∀ x, x ∈ us → x ∈ us2) → (∀ x, x ∈ ts → x ∈ ts2) →
    (∀ x, x ∈ urlsOf (mergeLoop l us ts) → x ∈ us2) →
    (∀ x, x ∈ titlesOf (mergeLoop l us ts) → x ∈ ts2) →
    mergeLoop l us2 ts2 = [] := by
  intro l
  induction l with
  | nil => intro us ts us2 ts2 _ _ _ _; rfl
  | cons p rest ih =>
      intro us ts us2 ts2 hu ht hru hrt
      cases hc : mergeCond p us ts with
      | true =>
          rw [mergeLoop, if_pos hc] at hru hrt
          rw [urlsOf_cons] at hru
          rw [titlesOf_cons] at hrt
          have hcond2 : mergeCond p us2 ts2 = false := by
            rw [mergeCond_false_iff]
            constructor
            · intro u huu
              exact hru u (by rw [huu]; exact List.mem_append_left _ (by simp))
            · intro t htt
              exact hrt t (by rw [htt]; exact List.mem_append_left _ (by simp))
          rw [mergeLoop, if_neg (by simp [hcond2])]
          refine ih (us ++ (truthyVal p.hyperlink).toList)
            (ts ++ (truthyVal p.title).toList) us2 ts2 ?_ ?_ ?_ ?_
          · intro x hx
            rcases List.mem_append.mp hx with hx | hx
            · exact hu x hx
            · exact hru x (List.mem_append_left _ hx)
          · intro x hx
            rcases List.mem_append.mp hx with hx | hx
            · exact ht x hx
            · exact hrt x (List.mem_append_left _ hx)
          · intro x hx
            exact hru x (List.mem_append_right _ hx)
          · intro x hx
            exact hrt x (List.mem_append_right _ hx)
      | false =>
          rw [mergeLoop, if_neg (by simp [hc])] at hru hrt
          have hif := (mergeCond_false_iff p us ts).mp hc
          have hcond2 : mergeCond p us2 ts2 = false := by
            rw [mergeCond_false_iff]
            exact ⟨fun u huu => hu u (hif.1 u huu),
              fun t htt => ht t (hif.2 t htt)⟩
          rw [mergeLoop, if_neg (by simp [hcond2])]
          exact ih us ts us2 ts2 hu ht hru hrt

/-! ### Scroll orchestrator lemmas -/

/-- Success test on a driver interaction result. -/
def isOkE {α : Type} : Except ScriptErr α → Bool
  | Except.ok _ => true
  | Except.error _ => false

/-- The main scroll loop never runs more iterations than its fuel, which
`scroll_page` sets to `max_scrolls`. -/
theorem scrollLoop_le_fuel (env : ScrollEnv) :
    ∀ fuel scrolls lastH lastC noCh noPr,
    (scrollLoop env fuel scrolls lastH lastC noCh noPr).1 ≤ fuel := by
  intro fuel
  induction fuel with
  | zero => intro s h c nc np; simp [scrollLoop]
  | succ n ih =>
      intro s h c nc np
      unfold scrollLoop
      repeat' split
      all_goals first
        | exact Nat.succ_le_succ (Nat.zero_le n)
        | exact Nat.succ_le_succ (ih _ _ _ _ _)

/-- When the unguarded per-iteration scripts all succeed, the main loop
never aborts, whatever the guarded load-more and image-count blocks do. -/
theorem scrollLoop_no_error (env : ScrollEnv)
    (hp : ∀ n, isOkE (env.pageY n) = true)
    (hs : ∀ n, isOkE (env.stepScroll n) = true)
    (hh : ∀ n, isOkE (env.stepHeight n) = true)
    (hb : ∀ n, isOkE (env.escBottom n) = true)
    (hm : ∀ n, isOkE (env.escSmooth n) = true) :
    ∀ fuel scrolls lastH lastC noCh noPr,
    (scrollLoop env fuel scrolls lastH lastC noCh noPr).2 = none := by
  intro fuel
  induction fuel with
  | zero => intro s h c nc np; rfl
  | succ n ih =>
      intro s h c nc np
      unfold scrollLoop
      cases hpe : env.pageY s with
      | error er => exact absurd (hp s) (by rw [hpe]; simp [isOkE])
      | ok v1 =>
          cases hse : env.stepScroll s with
          | error er => exact absurd (hs s) (by rw [hse]; simp [isOkE])
          | ok v2 =>
              dsimp only []
              cases hhe : env.stepHeight s with
              | error er => exact absurd (hh s) (by rw [hhe]; simp [isOkE])
              | ok nH =>
                  dsimp only []
                  split
                  · split
                    · cases hbe : env.escBottom s with
                      | error er => exact absurd (hb s) (by rw [hbe]; simp [isOkE])
                      | ok nH1 =>
                          dsimp only []
                          split
                          · cases hme : env.escSmooth s with
                            | error er =>
                                exact absurd (hm s) (by rw [hme]; simp [isOkE])
                            | ok nH2 =>
                                dsimp only []
                                split
                                · rfl
                                · exact ih _ _ _ _ _
                          · exact ih _ _ _ _ _
                    · exact ih _ _ _ _ _
                  · exact ih _ _ _ _ _

/-- The scroll-back loop succeeds when its two scripts always succeed. -/
theorem backLoop_ok (env : ScrollEnv)
    (h1 : ∀ i, isOkE (env.backHeight i) = true)
    (h2 : ∀ i, isOkE (env.backScroll i) = true) :
    ∀ fuel i, backLoop env i fuel = Except.ok () := by
  intro fuel
  induction fuel with
  | zero => intro i; rfl
  | succ n ih =>
      intro i
      unfold backLoop
      cases hbe : env.backHeight i with
      | error er => exact absurd (h1 i) (by rw [hbe]; simp [isOkE])
      | ok hgt =>
          dsimp only []
          split
          · cases hse : env.backScroll i with
            | error er => exact absurd (h2 i) (by rw [hse]; simp [isOkE])
            | ok _ => exact ih (i + 1)
          · exact ih (i + 1)

/-- When every unguarded driver interaction succeeds, `scroll_page`
returns normally — whatever the guarded load-more and image-count blocks
do. -/
theorem scroll_page_ok (env : ScrollEnv) (maxScrolls : Nat)
    (h0 : isOkE env.initHeight = true) (h1 : isOkE env.initScroll = true)
    (hp : ∀ n, isOkE (env.pageY n) = true)
    (hs : ∀ n, isOkE (env.stepScroll n) = true)
    (hh : ∀ n, isOkE (env.stepHeight n) = true)
    (hb : ∀ n, isOkE (env.escBottom n) = true)
    (hm : ∀ n, isOkE (env.escSmooth n) = true)
    (hf : isOkE env.finalScroll = true)
    (hbh : ∀ i, isOkE (env.backHeight i) = true)
    (hbs : ∀ i, isOkE (env.backScroll i) = true) :
    isOkE (scroll_page env maxScrolls) = true := by
  unfold scroll_page
  cases hie : env.initHeight with
  | error er => rw [hie] at h0; simp [isOkE] at h0
  | ok ht0 =>
      cases his : env.initScroll with
      | error er => rw [his] at h1; simp [isOkE] at h1
      | ok _ =>
          dsimp only []
          have hloop := scrollLoop_no_error env hp hs hh hb hm maxScrolls 0 ht0 0 0 0
          cases hsl : scrollLoop env maxScrolls 0 ht0 0 0 0 with
          | mk iters err =>
              rw [hsl] at hloop
              dsimp only [] at hloop
              subst hloop
              dsimp only []
              cases hfe : env.finalScroll with
              | error er => rw [hfe] at hf; simp [isOkE] at hf
              | ok _ =>
                  rw [backLoop_ok env hbh hbs 5 0]
                  rfl

/-! ### Concrete scroll environments -/

/-- A pure-plateau driver: height and image count never change and every
interaction succeeds. -/
def plateauEnv : ScrollEnv :=
  { initHeight := Except.ok 1000, initScroll := Except.ok (),
    initImages := Except.ok 0,
    pageY := fun _ => Except.ok 0, stepScroll := fun _ => Except.ok (),
    loadMore := fun _ => Except.ok (), stepImages := fun _ => Except.ok 0,
    stepHeight := fun _ => Except.ok 1000,
    escBottom := fun _ => Except.ok 1000,
    escSmooth := fun _ => Except.ok 1000,
    finalScroll := Except.ok (),
    backHeight := fun _ => Except.ok 1000,
    backScroll := fun _ => Except.ok () }

/-- A driver whose scroll-position read fails on every step; every other
interaction succeeds. -/
def errStepEnv : ScrollEnv :=
  { plateauEnv with pageY := fun _ => Except.error ScriptErr.scriptError }

/-- A driver whose load-more block and image count fail on every step;
every other interaction succeeds. -/
def swallowEnv : ScrollEnv :=
  { plateauEnv with
    loadMore := fun _ => Except.error ScriptErr.scriptError,
    stepImages := fun _ => Except.error ScriptErr.scriptError }

/-! ### Cascade helper lemmas -/

/-- The cascade filter body never returns acceptance: an element without
an image descendant fails the condition, and an element with one raises
on the unbound local `has_text`. -/
theorem cascadeStep_never_true (e : Elem) : cascadeStep e ≠ Except.ok true := by
  unfold cascadeStep
  dsimp only []
  split
  · simp
  · split
    · simp
    · simp

/-- One cascade-tier step never changes the accumulated state. -/
theorem cascadeInner_eq (st : List Elem × List Nat) (e : Elem) :
    cascadeInner st e = st := by
  unfold cascadeInner
  split
  · rfl
  · split
    · exact absurd (by assumption) (cascadeStep_never_true e)
    · rfl
    · rfl

/-- The full cascade yields no candidate on any page. -/
theorem cascadeCollect_empty (pg : Page) : cascadeCollect pg = [] := by
  have hinner : ∀ (es : List Elem) (st : List Elem × List Nat),
      es.foldl cascadeInner st = st := by
    intro es
    induction es with
    | nil => intro st; rfl
    | cons e r ihe =>
        intro st
        rw [List.foldl_cons, cascadeInner_eq]
        exact ihe st
  have hfold : ∀ (sels : List String) (st : List Elem × List Nat),
      sels.foldl (fun st sel => (pg.query sel).foldl cascadeInner st) st = st := by
    intro sels
    induction sels with
    | nil => intro st; rfl
    | cons sq rest ih =>
        intro st
        rw [List.foldl_cons]
        rw [hinner]
        exact ih st
  unfold cascadeCollect
  rw [hfold]

/-- Truthiness forces a value. -/
theorem pyTruthy_ne_none {o : Option String} (h : pyTruthy o = true) :
    o ≠ none := by
  intro hn
  subst hn
  simp [pyTruthy] at h

/-! ### Additional concrete inputs for witnesses -/

/-- A product card used by the C7 witness. -/
def cerealCardElem : Elem :=
  .mk 10 "a" [("href", "https://www.heb.com/product/cereal-12oz")]
    "Brand X Cereal 12oz" 300 400
    [("img", [.mk 12 "img" [("src", "https://images.heb.com/cereal.jpg")]
        "" 200 200 []])]

/-- A plain-text candidate used by the C6 witness. -/
def milkTextElem : Elem := .mk 11 "div" [] "Organic Whole Milk Gallon" 0 0 []

/-! ### Claim theorems -/

/-- Claim C1 (code_bug).  The claim says every cascade match surviving the
category filter with an image descendant and text or a price is kept and
accumulated across tiers.  In the code the filter condition at line 901
reads the local `has_text`, which is unbound at that point (it is first
assigned only in the later escalation tiers), so every match with an
image descendant raises `UnboundLocalError`, the bare `except` drops it,
and every match without an image fails the condition: the cascade yields
no candidate on any page.  The failing input `goodCardElem` is a cascade
match with an image descendant, a price in its text and a product link,
exactly what the comment at line 900 says is a real product. -/
theorem c1_cascade_filter_dead :
    cascadeStep goodCardElem = Except.error PyErr.unboundLocal ∧
    cascadeCollect goodCardPage = [] ∧
    ∀ pg : Page, cascadeCollect pg = [] :=
  ⟨rfl, cascadeCollect_empty goodCardPage, cascadeCollect_empty⟩

/-- Claim C2.  After the two extraction passes of `scrape_category_page`
on a fresh scraper, the DedupKeys (hyperlink if non-null, else title) of
the records in the accumulated collection are pairwise distinct. -/
theorem c2_dedup_keys_distinct (cands1 cands2 : List Elem) :
    List.Pairwise (fun a b => dedupKey a ≠ dedupKey b)
      ((scrape_category_page ⟨[], []⟩ cands1 cands2).2).products := by
  obtain ⟨t1, h11, h12, h13, h14⟩ := acceptFold_spec cands1 [] []
  obtain ⟨t2, h21, h22, h23, h24⟩ :=
    acceptFold_spec cands2 [] (cands1.foldl acceptStep ([], [])).2
  have e1 : (cands1.foldl acceptStep
      (([] : List Product), ([] : List String))).1 = t1 := by simpa using h11
  have e2 : (cands2.foldl acceptStep (([] : List Product),
      (cands1.foldl acceptStep (([] : List Product), ([] : List String))).2)).1
        = t2 := by simpa using h21
  have hprod : ((scrape_category_page ⟨[], []⟩ cands1 cands2).2).products =
      t1 ++ mergeLoop t2 (urlsOf t1) (titlesOf t1) := by
    unfold scrape_category_page extract_products merge_pass2
    dsimp only []
    rw [List.nil_append, e1, e2]
  rw [hprod]
  have hcross : ∀ a ∈ t1, ∀ b ∈ t2, uniqueKeyOpt a ≠ uniqueKeyOpt b := by
    intro a ha b hb
    obtain ⟨_, _, _, k, hk, hk1, _⟩ := h13 a ha
    obtain ⟨_, _, _, k2, hk2, _, hk2n⟩ := h23 b hb
    rw [hk, hk2]
    intro hkk
    injection hkk with hkk
    exact hk2n (hkk ▸ hk1)
  have hpw : List.Pairwise (fun a b => uniqueKeyOpt a ≠ uniqueKeyOpt b)
      (t1 ++ t2) := List.pairwise_append.mpr ⟨h14, h24, hcross⟩
  have hsub : (t1 ++ mergeLoop t2 (urlsOf t1) (titlesOf t1)).Sublist
      (t1 ++ t2) := (mergeLoop_sublist t2 _ _).append_left t1
  have hmem : ∀ p, p ∈ t1 ++ t2 → ∃ e, p = extract_product_data e := by
    intro p hp
    rcases List.mem_append.mp hp with hp | hp
    · exact (h13 p hp).1
    · exact (h23 p hp).1
  refine (hpw.sublist hsub).imp_of_mem ?_
  intro a b ha hb hR
  obtain ⟨ea, hea⟩ := hmem a (hsub.subset ha)
  obtain ⟨eb, heb⟩ := hmem b (hsub.subset hb)
  subst hea
  subst heb
  rw [dedupKey_eq_uniqueKey (extract_no_empty_fields ea).1
        (extract_no_empty_fields ea).2,
      dedupKey_eq_uniqueKey (extract_no_empty_fields eb).1
        (extract_no_empty_fields eb).2]
  exact hR

/-- Claim C3, as claimed (counterexample).  A candidate whose only link
information is an onclick handler is accepted into the collection (it has
an image, hence essential data), yet its hyperlink `/promo/heb.com/item42`
— extracted by strategy 4 without normalisation — is not an absolute URL,
contradicting the claim that every non-null hyperlink is an absolute URL
on the heb.com domain. -/
theorem c3_counterexample :
    (extract_product_data onclickElem).hyperlink = some "/promo/heb.com/item42" ∧
    (extract_products [] [onclickElem]).1 = [extract_product_data onclickElem] ∧
    pyStarts "/promo/heb.com/item42" "http" = false :=
  ⟨by decide, by decide, by decide⟩

/-- Claim C3, amended.  For every record accepted into the collection, a
non-null hyperlink always contains `heb.com` as a substring (strategies
1-3 normalise relative URLs against the base origin and test the
substring; strategy 4 may return a relative onclick-extracted string but
its pattern requires `heb.com`), and it never contains a
category/department/shop path segment. -/
theorem c3_amended (seen : List String) (cands : List Elem) (p : Product)
    (h : String) (hp : p ∈ (extract_products seen cands).1)
    (hh : p.hyperlink = some h) :
    strContains h "heb.com" = true ∧ isCategoryHref h = false := by
  obtain ⟨tail, h1, _, h3, _⟩ := acceptFold_spec cands [] seen
  unfold extract_products at hp
  have h1' : (cands.foldl acceptStep ([], seen)).1 = tail := by simpa using h1
  rw [h1'] at hp
  obtain ⟨⟨e, rfl⟩, _, hcat, _⟩ := h3 p hp
  have hcont : strContains h "heb.com" = true :=
    extractHyperlink_contains (e := e) hh
  have hne : h ≠ "" := ne_empty_of_contains_hebcom hcont
  have hie : h.isEmpty = false := by
    cases he : h.isEmpty
    · rfl
    · exact absurd ((String.isEmpty_iff h).mp he) hne
  have htv : truthyVal ((extract_product_data e).hyperlink) = some h := by
    rw [hh]
    simp [truthyVal, hie]
  exact ⟨hcont, hcat h htv⟩

/-- Witness for the amended C3 at a concrete accepted record. -/
theorem c3_amended_witness :
    strContains "https://www.heb.com/product/bananas" "heb.com" = true ∧
    isCategoryHref "https://www.heb.com/product/bananas" = false :=
  c3_amended [] [linkCardElem] (extract_product_data linkCardElem)
    "https://www.heb.com/product/bananas" (by decide) (by decide)

/-- Claim C4.  For a candidate whose only text is a bare price and that
has no heading/label descendants, accessible-name attribute or tooltip
attribute, the field extractor resolves the title to null (pure-price
exclusion) while the price resolves to that price string. -/
theorem c4_price_only :
    (extract_product_data priceOnlyElem).title = none ∧
    (extract_product_data priceOnlyElem).price = some "$12.99" := by
  exact ⟨by decide, by decide⟩

/-- Claim C5, as claimed (counterexample).  A script-execution error in
the per-step scroll-position read is not caught: it propagates out of
`scroll_page`, contradicting the claim that per-step scroll/script errors
never propagate. -/
theorem c5_counterexample :
    scroll_page errStepEnv 150 = Except.error ScriptErr.scriptError := rfl

/-- Claim C5, amended.  Errors raised inside the load-more block and the
image-count block of a scroll step are caught and treated as no-ops (a
failed image count leaves both streak counters unchanged), so they never
propagate out of `scroll_page`; but errors from the unguarded scripts —
the scroll-position read, the scroll command, the height reads, the
escalation scrolls and the final/back scrolls — do propagate. -/
theorem c5_step_errors_swallowed (env : ScrollEnv) (maxScrolls : Nat)
    (h0 : isOkE env.initHeight = true) (h1 : isOkE env.initScroll = true)
    (hp : ∀ n, isOkE (env.pageY n) = true)
    (hs : ∀ n, isOkE (env.stepScroll n) = true)
    (hh : ∀ n, isOkE (env.stepHeight n) = true)
    (hb : ∀ n, isOkE (env.escBottom n) = true)
    (hm : ∀ n, isOkE (env.escSmooth n) = true)
    (hf : isOkE env.finalScroll = true)
    (hbh : ∀ i, isOkE (env.backHeight i) = true)
    (hbs : ∀ i, isOkE (env.backScroll i) = true) :
    isOkE (scroll_page env maxScrolls) = true :=
  scroll_page_ok env maxScrolls h0 h1 hp hs hh hb hm hf hbh hbs

/-- Witness for the amended C5: a driver whose load-more block and image
count fail on every step still lets `scroll_page` return normally. -/
theorem c5_witness : isOkE (scroll_page swallowEnv 150) = true :=
  c5_step_errors_swallowed swallowEnv 150 rfl rfl (fun _ => rfl)
    (fun _ => rfl) (fun _ => rfl) (fun _ => rfl) (fun _ => rfl) rfl
    (fun _ => rfl) (fun _ => rfl)

/-- Claim C6, as claimed (counterexample).  The fallback over the
candidate rendered text accepts the line `Shop the garden collection`,
which contains the noise term `shop` that the strategy-1 predicate (the
predicate the claim says strategy 2 shares) rejects: strategy 2 actually
checks `shop now`, not `shop`. -/
theorem c6_counterexample :
    extractTitle shopTextElem = some "Shop the garden collection" ∧
    strContains (pyLower "Shop the garden collection") "shop" = true :=
  ⟨by decide, by decide⟩

/-- Claim C6, amended.  The strategy-2 fallback accepts the first line of
the candidate text that passes the strategy-2 line predicate — length in
[5,200], not starting with a price pattern, free of the noise terms
`price`, `add to cart`, `buy now`, `view details`, `shop now`,
`learn more`, and containing at least two words — and every accepted
title, from any strategy, is truncated to at most 150 characters. -/
theorem c6_amended :
    (∀ (e : Elem) (t : String), extractTitle e = some t → pyLen t ≤ 150) ∧
    (∀ (e : Elem) (t : String), titleFromText e = some t →
      ∃ pre l post, pyLines (pyStrip e.text) = pre ++ l :: post ∧
        (∀ x ∈ pre, validTitleLine x = false) ∧
        validTitleLine l = true ∧ t = pyTake l 150) := by
  constructor
  · intro e t ht
    exact (extractTitle_bounds ht).2
  · intro e t ht
    unfold titleFromText at ht
    dsimp only [] at ht
    split at ht
    · exact firstValidLine_spec ht
    · exact absurd ht (by simp)

/-- Witness for the amended C6 at a concrete candidate text. -/
theorem c6_amended_witness :
    pyLen "Organic Whole Milk Gallon" ≤ 150 ∧
    (∃ pre l post, pyLines (pyStrip milkTextElem.text) = pre ++ l :: post ∧
      (∀ x ∈ pre, validTitleLine x = false) ∧ validTitleLine l = true ∧
      "Organic Whole Milk Gallon" = pyTake l 150) :=
  ⟨c6_amended.1 milkTextElem "Organic Whole Milk Gallon" (by decide),
   c6_amended.2 milkTextElem "Organic Whole Milk Gallon" (by decide)⟩

/-- Claim C7.  Every record accepted into the collection has at least one
of title, price or image non-null; a record with all fields null, or with
only a hyperlink, is never in the output. -/
theorem c7_essential_data (seen : List String) (cands : List Elem)
    (p : Product) (hp : p ∈ (extract_products seen cands).1) :
    p.title ≠ none ∨ p.price ≠ none ∨ p.image ≠ none := by
  obtain ⟨tail, h1, _, h3, _⟩ := acceptFold_spec cands [] seen
  unfold extract_products at hp
  have h1' : (cands.foldl acceptStep ([], seen)).1 = tail := by simpa using h1
  rw [h1'] at hp
  obtain ⟨_, hess, _, _⟩ := h3 p hp
  simp only [Bool.or_eq_true] at hess
  rcases hess with (ht | hq) | hi
  · exact Or.inl (pyTruthy_ne_none ht)
  · exact Or.inr (Or.inl (pyTruthy_ne_none hq))
  · exact Or.inr (Or.inr (pyTruthy_ne_none hi))

/-- Witness for C7 at a concrete accepted record. -/
theorem c7_witness :
    (extract_product_data cerealCardElem).title ≠ none ∨
    (extract_product_data cerealCardElem).price ≠ none ∨
    (extract_product_data cerealCardElem).image ≠ none :=
  c7_essential_data [] [cerealCardElem] (extract_product_data cerealCardElem)
    (by decide)

/-- Claim C8.  The scroll loop of `scroll_page` runs at most `max_scrolls`
iterations for every driver behaviour, and in the pure-plateau case
(height and image count never change) it converges and returns after five
iterations, well within the 150-step cap used by the caller. -/
theorem c8_scroll_bounded :
    (∀ (env : ScrollEnv) (maxScrolls h0 : Nat),
      (scrollLoop env maxScrolls 0 h0 0 0 0).1 ≤ maxScrolls) ∧
    scroll_page plateauEnv 150 = Except.ok 5 :=
  ⟨fun env maxScrolls h0 => scrollLoop_le_fuel env maxScrolls 0 h0 0 0 0, rfl⟩

/-- Claim C9.  Merging the same pass-2 record list a second time, against
the seen-key state produced by the first merge, leaves the accumulated
collection unchanged. -/
theorem c9_merge_idempotent (ps l : List Product) :
    merge_pass2 (merge_pass2 ps l) l = merge_pass2 ps l := by
  unfold merge_pass2
  have hnil : mergeLoop l
      (urlsOf (ps ++ mergeLoop l (urlsOf ps) (titlesOf ps)))
      (titlesOf (ps ++ mergeLoop l (urlsOf ps) (titlesOf ps))) = [] := by
    apply mergeLoop_subsumed l (urlsOf ps) (titlesOf ps)
    · intro x hx
      rw [urlsOf_append]
      exact List.mem_append_left _ hx
    · intro x hx
      rw [titlesOf_append]
      exact List.mem_append_left _ hx
    · intro x hx
      rw [urlsOf_append]
      exact List.mem_append_right _ hx
    · intro x hx
      rw [titlesOf_append]
      exact List.mem_append_right _ hx
  rw [hnil, List.append_nil]

/-- Claim C10.  On a fresh scraper, `scrape_category_page` returns exactly
the pass-1 records: the final accumulated collection extends the returned
list by the pass-2 discoveries, none of which occurs in the returned list,
so the returned list is a (possibly strict) prefix of the collection. -/
theorem c10_return_pass1_only (cands1 cands2 : List Elem) :
    ∃ rest,
      ((scrape_category_page ⟨[], []⟩ cands1 cands2).2).products =
        (scrape_category_page ⟨[], []⟩ cands1 cands2).1 ++ rest ∧
      ∀ p ∈ rest, p ∉ (scrape_category_page ⟨[], []⟩ cands1 cands2).1 := by
  obtain ⟨t1, h11, h12, h13, h14⟩ := acceptFold_spec cands1 [] []
  obtain ⟨t2, h21, h22, h23, h24⟩ :=
    acceptFold_spec cands2 [] (cands1.foldl acceptStep ([], [])).2
  have e1 : (cands1.foldl acceptStep
      (([] : List Product), ([] : List String))).1 = t1 := by simpa using h11
  have e2 : (cands2.foldl acceptStep (([] : List Product),
      (cands1.foldl acceptStep (([] : List Product), ([] : List String))).2)).1
        = t2 := by simpa using h21
  have hret : (scrape_category_page ⟨[], []⟩ cands1 cands2).1 = t1 := by
    unfold scrape_category_page extract_products
    dsimp only []
    exact e1
  have hprod : ((scrape_category_page ⟨[], []⟩ cands1 cands2).2).products =
      t1 ++ mergeLoop t2 (urlsOf t1) (titlesOf t1) := by
    unfold scrape_category_page extract_products merge_pass2
    dsimp only []
    rw [List.nil_append, e1, e2]
  refine ⟨mergeLoop t2 (urlsOf t1) (titlesOf t1), ?_, ?_⟩
  · rw [hprod, hret]
  · intro p hp hmem
    rw [hret] at hmem
    have hp2 : p ∈ t2 := (mergeLoop_sublist t2 _ _).subset hp
    obtain ⟨_, _, _, k, hk, hk1, _⟩ := h13 p hmem
    obtain ⟨_, _, _, k2, hk2, _, hk2n⟩ := h23 p hp2
    rw [hk] at hk2
    injection hk2 with hkk
    exact hk2n (hkk ▸ hk1)

end HEBScrape
